import Mathlib

/-!
Verification of the Data Quality Watchtower layered validation pipeline.

The repository ships the React frontend (pages, API client, auth context)
under src/frontend and src/unnamed; the FastAPI backend implementing the
pipeline core (Bronze Ingestor, Rule Registry, Silver Validator, Gold
Aggregator, Orchestrator, Lineage Recorder) is not part of the source
tree, only its HTTP callers are.  The pipeline-core definitions below are
therefore modelled from the specification; the auth-context and
registration-form definitions are translated directly from the frontend
source files.
-/

namespace Watchtower

/-- Modelled from the spec: a typed field value of a Bronze row
(the backend Bronze Ingestor is not in src/). -/
inductive Value where
  | int (n : Int)
  | str (s : String)
  | null
deriving DecidableEq

/-- Modelled from the spec: a Bronze Row, an ordered mapping of field
name to typed value, tagged with a stable row identifier unique within
one run. -/
structure Row where
  id : Nat
  fields : List (String × Value)
deriving DecidableEq

/-- Field lookup inside a row. -/
def getField (r : Row) (f : String) : Option Value :=
  (r.fields.find? (fun p => p.fst == f)).map (fun p => p.snd)

/-- Modelled from the spec: the quality-rule check type
(schema, constraint, business_rule). -/
inductive CheckType where
  | schema
  | constraint
  | business_rule
deriving DecidableEq

/-- Modelled from the spec: rule severity, blocking or warning. -/
inductive Severity where
  | blocking
  | warning
deriving DecidableEq

/-- Modelled from the spec: the rule predicate as a tagged variant
(field, operator, expected value or range) with a pure evaluation
function per variant. -/
inductive Pred where
  | requiredField (f : String)
  | intRange (f : String) (lo hi : Int)
  | crossLe (f g : String)
deriving DecidableEq

/-- Pure evaluation of a rule predicate against a row: true means the
row satisfies the rule. -/
def evalPred (p : Pred) (r : Row) : Bool :=
  match p with
  | .requiredField f =>
    match getField r f with
    | some v => !(v == Value.null)
    | none => false
  | .intRange f lo hi =>
    match getField r f with
    | some (.int n) => decide (lo ≤ n ∧ n ≤ hi)
    | _ => false
  | .crossLe f g =>
    match getField r f, getField r g with
    | some (.int a), some (.int b) => decide (a ≤ b)
    | _, _ => false

/-- Modelled from the spec: a QualityRule record. -/
structure QualityRule where
  id : Nat
  check_type : CheckType
  name : String
  pred : Pred
  severity : Severity
deriving DecidableEq

/-- Modelled from the spec: aggregate CheckResult status. -/
inductive CheckStatus where
  | passed
  | failed
  | warning
deriving DecidableEq

/-- Modelled from the spec: the per-rule CheckResult; details keep the
violating row identifiers, bounded in count. -/
structure CheckResult where
  rule_id : Nat
  rule_name : String
  check_type : CheckType
  status : CheckStatus
  violating_ids : List Nat
deriving DecidableEq

/-- Modelled from the spec: per-layer status of a pipeline run. -/
inductive LayerStatus where
  | pending
  | running
  | completed
  | failed
deriving DecidableEq

/-- Modelled from the spec: the PipelineRun record. -/
structure PipelineRun where
  id : Nat
  data_source_id : Nat
  started_at : Nat
  bronze_status : LayerStatus
  silver_status : LayerStatus
  gold_status : LayerStatus
  total_records : Nat
  passed_records : Nat
  quality_score : Nat
  checks_applied : Nat
deriving DecidableEq

/-- Modelled from the spec: Rule Registry ordering, schema rules first,
then constraint, then business_rule, so execution order is
deterministic. -/
def orderRules (rules : List QualityRule) : List QualityRule :=
  rules.filter (fun q => q.check_type == .schema) ++
    rules.filter (fun q => q.check_type == .constraint) ++
    rules.filter (fun q => q.check_type == .business_rule)

/-- A row satisfies every schema rule of the rule set. -/
def schemaOk (rules : List QualityRule) (r : Row) : Bool :=
  (rules.filter (fun q => q.check_type == .schema)).all (fun q => evalPred q.pred r)

/-- Modelled from the spec: the rows a rule is evaluated against.
Rows failing a schema rule are excluded from all constraint and
business-rule evaluation for the run. -/
def eligibleRows (rules : List QualityRule) (rows : List Row) (q : QualityRule) : List Row :=
  if q.check_type == .schema then rows else rows.filter (schemaOk rules)

/-- The eligible rows violating a rule. -/
def violatingRows (rules : List QualityRule) (rows : List Row) (q : QualityRule) : List Row :=
  (eligibleRows rules rows q).filter (fun r => !(evalPred q.pred r))

/-- Modelled from the spec: schema failure is always blocking, other
rules carry their declared severity. -/
def effSeverity (q : QualityRule) : Severity :=
  if q.check_type == .schema then .blocking else q.severity

/-- Modelled from the spec: the aggregate CheckResult of one rule over
the run rows: failed if an eligible row violates a blocking rule,
warning if violations exist only under warning severity, passed when
no eligible row violates it. -/
def checkResultFor (rules : List QualityRule) (rows : List Row) (q : QualityRule) : CheckResult :=
  let viol := violatingRows rules rows q
  { rule_id := q.id
    rule_name := q.name
    check_type := q.check_type
    status :=
      if viol.isEmpty then .passed
      else if effSeverity q == .blocking then .failed
      else .warning
    violating_ids := (viol.map (fun r => r.id)).take 10 }

/-- Modelled from the spec: the Silver Validator produces one
CheckResult per rule, in registry order. -/
def silverValidate (rules : List QualityRule) (rows : List Row) : List CheckResult :=
  rules.map (checkResultFor rules rows)

/-- Modelled from the spec: a row is counted as passed overall exactly
when it violates zero blocking-severity rules (schema rules counting as
blocking). -/
def rowPassed (rules : List QualityRule) (r : Row) : Bool :=
  rules.all (fun q => effSeverity q == .warning || evalPred q.pred r)

/-- The partition of rows that passed all blocking rules; this is the
Gold record set. -/
def passedRows (rules : List QualityRule) (rows : List Row) : List Row :=
  rows.filter (rowPassed rules)

/-- Round-half-up of 100 * passed / total, for total > 0. -/
def roundPct (passed total : Nat) : Nat :=
  (200 * passed + total) / (2 * total)

/-- Modelled from the spec: quality_score is round(100 * passed_records /
total_records) when total_records > 0, else 0; rounding convention is
round-half-up, the choice the spec asks implementers to fix. -/
def quality_score (passed total : Nat) : Nat :=
  if total = 0 then 0 else roundPct passed total

/-- Modelled from the spec: the Bronze ingestion error taxonomy for
malformed input. -/
inductive IngestionError where
  | emptyFile
  | malformedCSV
  | invalidJSON
deriving DecidableEq

/-- Modelled from the spec: raw file input handed to the Bronze
Ingestor, raw bytes plus declared content type.  CSV text is parsed
concretely below; a JSON payload is modelled by its parse outcome, none
standing for invalid JSON. -/
inductive FileInput where
  | csvFile (text : String)
  | jsonFile (parsed : Option (List Row))

/-- Splits a character sequence at every occurrence of a separator. -/
def splitOnChar (c : Char) : List Char → List (List Char)
  | [] => [[]]
  | x :: xs =>
    if x == c then [] :: splitOnChar c xs
    else
      match splitOnChar c xs with
      | [] => [[x]]
      | y :: ys => (x :: y) :: ys

/-- A line consisting only of whitespace. -/
def lineBlank (l : List Char) : Bool :=
  l.all (fun ch => ch.isWhitespace)

/-- Modelled from the spec: CSV parsing into rows (header line then data
lines); an empty file or a data line whose field count differs from the
header is malformed input.  Either the whole dataset parses or an
IngestionError is returned, never a partial row set. -/
def parseCSV (text : String) : Except IngestionError (List Row) :=
  let lines := (splitOnChar '\n' text.data).filter (fun l => !(lineBlank l))
  match lines with
  | [] => .error .emptyFile
  | header :: dataLines =>
    let cols := (splitOnChar ',' header).map (fun cs => String.mk cs)
    if dataLines.isEmpty then .error .emptyFile
    else if dataLines.all (fun l => (splitOnChar ',' l).length == cols.length) then
      .ok ((dataLines.enum).map
        (fun p => { id := p.fst,
                    fields := cols.zip ((splitOnChar ',' p.snd).map
                      (fun cs => Value.str (String.mk cs))) }))
    else .error .malformedCSV

/-- Modelled from the spec: the Bronze Ingestor parses the input into a
sequence of rows; malformed input (unparseable CSV, invalid JSON, empty
file) fails with an IngestionError and nothing is ingested. -/
def bronzeIngest : FileInput → Except IngestionError (List Row)
  | .csvFile text => parseCSV text
  | .jsonFile none => .error .invalidJSON
  | .jsonFile (some rows) => if rows.isEmpty then .error .emptyFile else .ok rows

/-- The outcome of one orchestrated run: the persisted PipelineRun
record plus the CheckResults produced at Silver. -/
structure RunOutcome where
  run : PipelineRun
  checks : List CheckResult
deriving DecidableEq

/-- Modelled from the spec: the Pipeline Orchestrator drives one run
through Bronze, Silver and Gold.  On ingestion failure the run is
terminated with bronze_status failed while silver and gold stay pending
and no rows are recorded; on success every row is loaded, the Silver
Validator evaluates the registry rules in order, and the Gold Aggregator
records passed_records and the quality score. -/
def runPipeline (rules : List QualityRule) (sourceId runId startedAt : Nat)
    (input : FileInput) : RunOutcome :=
  match bronzeIngest input with
  | .error _ =>
    { run := { id := runId, data_source_id := sourceId, started_at := startedAt,
               bronze_status := .failed, silver_status := .pending, gold_status := .pending,
               total_records := 0, passed_records := 0, quality_score := 0,
               checks_applied := 0 }
      checks := [] }
  | .ok rows =>
    let ordered := orderRules rules
    let checks := silverValidate ordered rows
    let passed := passedRows ordered rows
    { run := { id := runId, data_source_id := sourceId, started_at := startedAt,
               bronze_status := .completed, silver_status := .completed,
               gold_status := .completed,
               total_records := rows.length, passed_records := passed.length,
               quality_score := quality_score passed.length rows.length,
               checks_applied := checks.length }
      checks := checks }

/-- A run with some failed layer counts as failed overall. -/
def runFailed (r : PipelineRun) : Bool :=
  r.bronze_status == .failed || r.silver_status == .failed || r.gold_status == .failed

/-- Modelled from the spec: the overall run state is running while no
layer has failed and gold has not completed; such a run is
non-terminal. -/
def runNonTerminal (r : PipelineRun) : Bool :=
  !runFailed r && !(r.gold_status == .completed)

/-- Modelled from the spec: the caller-facing error rejecting a rerun
while a run is in flight. -/
inductive ConcurrentRunConflict where
  | conflict
deriving DecidableEq

/-- A freshly created PipelineRun at orchestration start, bronze moving
to running, downstream layers pending. -/
def newRun (sourceId runId startedAt : Nat) : PipelineRun :=
  { id := runId, data_source_id := sourceId, started_at := startedAt,
    bronze_status := .running, silver_status := .pending, gold_status := .pending,
    total_records := 0, passed_records := 0, quality_score := 0, checks_applied := 0 }

/-- Modelled from the spec: a rerun request for a source is rejected
with ConcurrentRunConflict while a prior run for that source is still
non-terminal; otherwise a brand-new PipelineRun is created and appended
to the run store. -/
def rerun (store : List PipelineRun) (sourceId runId startedAt : Nat) :
    Except ConcurrentRunConflict (List PipelineRun) :=
  if store.any (fun r => r.data_source_id == sourceId && runNonTerminal r) then
    .error .conflict
  else
    .ok (newRun sourceId runId startedAt :: store)

/-- The non-terminal runs a store holds for one source. -/
def nonTerminalCount (store : List PipelineRun) (sourceId : Nat) : Nat :=
  (store.filter (fun r => r.data_source_id == sourceId && runNonTerminal r)).length

/-- Modelled from the spec: the DataSource record. -/
structure DataSource where
  id : Nat
  name : String
  source_type : String
  description : String
  created_at : Nat
  record_count : Nat
deriving DecidableEq

/-- Modelled from the spec: one layer snapshot in the lineage view,
status plus description text plus count. -/
structure LayerSnapshot where
  status : LayerStatus
  description : String
  count : Nat
deriving DecidableEq

/-- Modelled from the spec: the derived LineageView projection. -/
structure LineageView where
  source : DataSource
  bronze : LayerSnapshot
  silver : LayerSnapshot
  gold : LayerSnapshot
  quality_checks : List CheckResult
  pipeline_runs : List PipelineRun
deriving DecidableEq

/-- Modelled from the spec: the opaque record store the Lineage
Recorder reads, holding sources, runs and CheckResults keyed by run
id. -/
structure Store where
  sources : List DataSource
  runs : List PipelineRun
  checks : List (Nat × CheckResult)
deriving DecidableEq

/-- Modelled from the spec: the read-side NotFoundError. -/
inductive NotFoundError where
  | notFound
deriving DecidableEq

/-- The runs a store holds for one source. -/
def runsOf (st : Store) (sourceId : Nat) : List PipelineRun :=
  st.runs.filter (fun r => r.data_source_id == sourceId)

/-- The most-recent-first ordering on runs: a run comes before another
when its started_at is at least as late. -/
def recent (a b : PipelineRun) : Prop :=
  b.started_at ≤ a.started_at

instance : DecidableRel recent :=
  fun a b => Nat.decLe b.started_at a.started_at

instance : IsTotal PipelineRun recent :=
  ⟨fun a b => Nat.le_total b.started_at a.started_at⟩

instance : IsTrans PipelineRun recent :=
  ⟨fun _ _ _ hab hbc => Nat.le_trans hbc hab⟩

/-- The run history of a source, ordered by started_at descending. -/
def historyOf (st : Store) (sourceId : Nat) : List PipelineRun :=
  List.insertionSort recent (runsOf st sourceId)

/-- A layer snapshot rendered as pending with a zero count. -/
def pendingLayer (description : String) : LayerSnapshot :=
  { status := .pending, description := description, count := 0 }

/-- Modelled from the spec: the Lineage Recorder is a pure read-side
projection.  Given a data source id it returns the source record, the
three-layer snapshot of the most recent run, the CheckResults of the
most recent run, and the full run history ordered by started_at
descending; it fails with NotFoundError when the source does not exist,
and a source with no runs yet renders its layers as pending with zero
counts. -/
def computeLineage (st : Store) (sourceId : Nat) : Except NotFoundError LineageView :=
  match st.sources.find? (fun s => s.id == sourceId) with
  | none => .error .notFound
  | some src =>
    match historyOf st sourceId with
    | [] =>
      .ok { source := src
            bronze := pendingLayer "Raw data layer"
            silver := pendingLayer "Validated layer"
            gold := pendingLayer "Business-ready layer"
            quality_checks := []
            pipeline_runs := [] }
    | latest :: rest =>
      .ok { source := src
            bronze := { status := latest.bronze_status, description := "Raw data layer",
                        count := latest.total_records }
            silver := { status := latest.silver_status, description := "Validated layer",
                        count := latest.checks_applied }
            gold := { status := latest.gold_status, description := "Business-ready layer",
                      count := latest.quality_score }
            quality_checks := (st.checks.filter (fun pc => pc.fst == latest.id)).map
              (fun pc => pc.snd)
            pipeline_runs := latest :: rest }

/-- The Lineage Recorder call with explicit store passing: it returns
its projection together with the store, which it never modifies. -/
def getLineage (st : Store) (sourceId : Nat) :
    Except NotFoundError LineageView × Store :=
  (computeLineage st sourceId, st)

/-! Frontend definitions translated from the source files. -/

/-- The authenticated user data held by the auth context
(src/unnamed/part_000). -/
structure UserData where
  name : String
  email : String
deriving DecidableEq

/-- The state of the AuthProvider context in src/unnamed/part_000: the
user and token React state, the isDemo flag, and the token persisted
under the watchtower_token key in localStorage. -/
structure AuthState where
  user : Option UserData
  token : Option String
  isDemo : Bool
  storedToken : Option String
deriving DecidableEq

/-- enterDemoMode from src/unnamed/part_000 lines 65 to 70: sets isDemo
true, clears user and token, and removes the stored token. -/
def enterDemoMode (s : AuthState) : AuthState :=
  { s with isDemo := true, user := none, token := none, storedToken := none }

/-- isAuthenticated from the AuthProvider value (line 89 of
src/unnamed/part_000): the double negation of user. -/
def isAuthenticated (s : AuthState) : Bool :=
  s.user.isSome

/-- handleSubmit of RegisterPage.js lines 20 to 44, reduced to its
decision of whether the register API is invoked: it returns early when
the password differs from the confirmation or is shorter than 6
characters, and calls the API otherwise. -/
def registerSubmitCallsApi (password confirmPassword : String) : Bool :=
  if password ≠ confirmPassword then false
  else if password.length < 6 then false
  else true

/-! Concrete fixtures used to exercise the pipeline on the scenarios the
spec fixes. -/

/-- A 100-row dataset whose amount field takes the values 0 to 99. -/
def demoRows : List Row :=
  (List.range 100).map (fun i => { id := i, fields := [("amount", Value.int (Int.ofNat i))] })

/-- A schema rule requiring the amount field, satisfied by every demo
row. -/
def amountPresentRule : QualityRule :=
  { id := 1, check_type := .schema, name := "amount_present",
    pred := .requiredField "amount", severity := .blocking }

/-- A blocking constraint rule that exactly the 20 demo rows with
amount below 20 violate. -/
def amountMin20Rule : QualityRule :=
  { id := 2, check_type := .constraint, name := "amount_at_least_20",
    pred := .intRange "amount" 20 1000, severity := .blocking }

/-- The demo rule set. -/
def demoRules : List QualityRule :=
  [amountPresentRule, amountMin20Rule]

/-- A row lacking the amount field, so violating the schema rule. -/
def rowNoAmount : Row :=
  { id := 0, fields := [] }

/-- The outcome of running the pipeline on the demo dataset. -/
def demoOutcome : RunOutcome :=
  runPipeline demoRules 1 1 0 (.jsonFile (some demoRows))

/-! Theorems settling the claims. -/

/-- C1: for every completed pipeline run the quality_score equals
round(100 * passed_records / total_records) when total_records > 0 and 0
otherwise; on a 100-row source where a blocking constraint rule fails
for exactly 20 rows and no other rule fails, quality_score is 80,
passed_records is 80, and the constraint rule's CheckResult status is
failed. -/
theorem quality_score_formula_and_demo :
    (∀ rules sourceId runId startedAt input,
      (runPipeline rules sourceId runId startedAt input).run.quality_score =
        (if (runPipeline rules sourceId runId startedAt input).run.total_records = 0 then 0
         else roundPct (runPipeline rules sourceId runId startedAt input).run.passed_records
           (runPipeline rules sourceId runId startedAt input).run.total_records)) ∧
    demoOutcome.run.total_records = 100 ∧
    demoOutcome.run.passed_records = 80 ∧
    demoOutcome.run.quality_score = 80 ∧
    (demoOutcome.checks.map (fun c => (c.rule_id, c.status))) =
      [(1, .passed), (2, .failed)] := by
  refine ⟨?_, by decide, by decide, by decide, by decide⟩
  intro rules sourceId runId startedAt input
  unfold runPipeline
  cases bronzeIngest input with
  | error e => rfl
  | ok rows => simp [quality_score]

/-- The rounded percentage never exceeds 100 when passed is at most
total. -/
theorem roundPct_le_100 (passed total : Nat) (hp : passed ≤ total) (ht : 0 < total) :
    roundPct passed total ≤ 100 := by
  unfold roundPct
  have h : 200 * passed + total < 101 * (2 * total) := by omega
  have := (Nat.div_lt_iff_lt_mul (by omega : 0 < 2 * total)).mpr h
  omega

/-- C6: for every pipeline run, regardless of input, passed_records is
at most total_records and quality_score lies in the interval from 0 to
100. -/
theorem run_invariants (rules : List QualityRule) (sourceId runId startedAt : Nat)
    (input : FileInput) :
    (runPipeline rules sourceId runId startedAt input).run.passed_records ≤
      (runPipeline rules sourceId runId startedAt input).run.total_records ∧
    (runPipeline rules sourceId runId startedAt input).run.quality_score ≤ 100 := by
  unfold runPipeline
  cases bronzeIngest input with
  | error e => exact ⟨Nat.le_refl 0, Nat.zero_le 100⟩
  | ok rows =>
    have hle : (passedRows (orderRules rules) rows).length ≤ rows.length :=
      List.length_filter_le _ rows
    refine ⟨hle, ?_⟩
    simp only [quality_score]
    by_cases h : rows.length = 0
    · simp [h]
    · simp only [h, if_false]
      exact roundPct_le_100 _ _ hle (Nat.pos_of_ne_zero h)

/-- C2: when Bronze ingestion fails with an IngestionError the run
records bronze_status failed with silver and gold still pending and no
rows ingested; when it succeeds the whole dataset is loaded, so
ingestion is all or nothing. -/
theorem ingestion_failure_halts_run (rules : List QualityRule)
    (sourceId runId startedAt : Nat) :
    (∀ input e, bronzeIngest input = .error e →
      (runPipeline rules sourceId runId startedAt input).run.bronze_status = .failed ∧
      (runPipeline rules sourceId runId startedAt input).run.silver_status = .pending ∧
      (runPipeline rules sourceId runId startedAt input).run.gold_status = .pending ∧
      (runPipeline rules sourceId runId startedAt input).run.total_records = 0 ∧
      (runPipeline rules sourceId runId startedAt input).checks = []) ∧
    (∀ input rows, bronzeIngest input = .ok rows →
      (runPipeline rules sourceId runId startedAt input).run.total_records = rows.length) := by
  constructor
  · intro input e h
    unfold runPipeline
    rw [h]
    exact ⟨rfl, rfl, rfl, rfl, rfl⟩
  · intro input rows h
    unfold runPipeline
    rw [h]

/-- Witness for C2: the empty uploaded file fails ingestion with
IngestionError and the resulting run keeps silver and gold pending. -/
theorem ingestion_failure_halts_run_witness :
    bronzeIngest (.csvFile "") = .error .emptyFile ∧
    (runPipeline demoRules 1 1 0 (.csvFile "")).run.bronze_status = .failed ∧
    (runPipeline demoRules 1 1 0 (.csvFile "")).run.silver_status = .pending ∧
    (runPipeline demoRules 1 1 0 (.csvFile "")).run.gold_status = .pending ∧
    (runPipeline demoRules 1 1 0 (.csvFile "")).run.total_records = 0 := by
  have h : bronzeIngest (.csvFile "") = .error .emptyFile := by rfl
  have h2 := (ingestion_failure_halts_run demoRules 1 1 0).1 (.csvFile "") .emptyFile h
  exact ⟨h, h2.1, h2.2.1, h2.2.2.1, h2.2.2.2.1⟩

/-- The non-terminal count of a store grows by one when the added run
matches the source and is non-terminal, and is unchanged otherwise. -/
theorem nonTerminalCount_cons (r : PipelineRun) (store : List PipelineRun) (s : Nat) :
    nonTerminalCount (r :: store) s =
      (if r.data_source_id == s && runNonTerminal r then 1 else 0) +
        nonTerminalCount store s := by
  unfold nonTerminalCount
  rw [List.filter_cons]
  split
  · next hc => simp [hc, Nat.add_comm]
  · next hc => simp [hc]

/-- C3: a rerun request issued while a prior run for the source is
still non-terminal fails with ConcurrentRunConflict, creating no run,
and a successful rerun preserves the invariant that at most one
PipelineRun per source is non-terminal. -/
theorem rerun_exclusivity :
    (∀ store sourceId runId startedAt,
      (∃ r ∈ store, r.data_source_id = sourceId ∧ runNonTerminal r = true) →
      rerun store sourceId runId startedAt = .error .conflict) ∧
    (∀ store sourceId runId startedAt store2,
      (∀ s, nonTerminalCount store s ≤ 1) →
      rerun store sourceId runId startedAt = .ok store2 →
      ∀ s, nonTerminalCount store2 s ≤ 1) := by
  constructor
  · intro store sourceId runId startedAt h
    unfold rerun
    have hany : store.any (fun r => r.data_source_id == sourceId && runNonTerminal r) = true := by
      rw [List.any_eq_true]
      obtain ⟨r, hr, h1, h2⟩ := h
      exact ⟨r, hr, by simp [h1, h2]⟩
    rw [if_pos hany]
  · intro store sourceId runId startedAt store2 hinv h s
    unfold rerun at h
    by_cases hany : store.any (fun r => r.data_source_id == sourceId && runNonTerminal r) = true
    · rw [if_pos hany] at h
      exact absurd h (by simp)
    · rw [if_neg hany] at h
      injection h with h
      subst h
      rw [nonTerminalCount_cons]
      by_cases hs : sourceId = s
      · subst hs
        have hzero : nonTerminalCount store sourceId = 0 := by
          unfold nonTerminalCount
          rw [List.length_eq_zero, List.filter_eq_nil_iff]
          intro r hr hcontra
          exact hany (List.any_eq_true.mpr ⟨r, hr, hcontra⟩)
        rw [hzero]
        split <;> omega
      · have hnew : ((newRun sourceId runId startedAt).data_source_id == s) = false := by
          simp [newRun]
          exact hs
        rw [hnew]
        simpa using hinv s

/-- Witness for C3: with a single fresh running run in the store, a
rerun for the same source is rejected with ConcurrentRunConflict, and
the empty store satisfies the at-most-one invariant after a rerun. -/
theorem rerun_exclusivity_witness :
    rerun [newRun 5 0 0] 5 1 1 = .error .conflict ∧
    nonTerminalCount (newRun 5 2 2 :: []) 5 ≤ 1 := by
  constructor
  · exact rerun_exclusivity.1 [newRun 5 0 0] 5 1 1
      ⟨newRun 5 0 0, by simp, rfl, by decide⟩
  · exact rerun_exclusivity.2 [] 5 2 2 (newRun 5 2 2 :: [])
      (fun s => by simp [nonTerminalCount]) rfl 5

/-- C4: a row failing a schema rule is excluded from the evaluation of
every constraint and business_rule rule of the run, never appears among
their recorded violating rows, and is classified failed overall rather
than merely flagged. -/
theorem schema_failure_short_circuits (rules : List QualityRule) (rows : List Row) (r : Row)
    (h : schemaOk rules r = false) :
    (∀ q : QualityRule, q.check_type ≠ .schema →
      r ∉ eligibleRows rules rows q ∧ r ∉ violatingRows rules rows q) ∧
    rowPassed rules r = false ∧
    r ∉ passedRows rules rows := by
  have hel : ∀ q : QualityRule, q.check_type ≠ .schema → r ∉ eligibleRows rules rows q := by
    intro q hne hmem
    unfold eligibleRows at hmem
    rw [if_neg (by simp [hne])] at hmem
    have := (List.mem_filter.mp hmem).2
    rw [h] at this
    exact absurd this (by decide)
  have hrp : rowPassed rules r = false := by
    unfold schemaOk at h
    obtain ⟨q0, hq0, hfail⟩ := List.all_eq_false.mp h
    have hq0r : q0 ∈ rules := (List.mem_filter.mp hq0).1
    have hq0s : (q0.check_type == CheckType.schema) = true := (List.mem_filter.mp hq0).2
    unfold rowPassed
    rw [List.all_eq_false]
    refine ⟨q0, hq0r, ?_⟩
    have heff : effSeverity q0 = .blocking := by
      unfold effSeverity
      rw [if_pos hq0s]
    rw [heff]
    simpa using hfail
  refine ⟨fun q hne => ⟨hel q hne, ?_⟩, hrp, ?_⟩
  · intro hmem
    unfold violatingRows at hmem
    exact hel q hne (List.mem_filter.mp hmem).1
  · intro hmem
    have := (List.mem_filter.mp hmem).2
    rw [hrp] at this
    exact absurd this (by decide)

/-- Witness for C4: in the demo rule set, a row missing the amount
field fails schema validation, is excluded from the constraint rule's
eligible rows, and lands in the failed partition. -/
theorem schema_failure_short_circuits_witness :
    schemaOk demoRules rowNoAmount = false ∧
    rowNoAmount ∉ eligibleRows demoRules [rowNoAmount] amountMin20Rule ∧
    rowPassed demoRules rowNoAmount = false := by
  have h : schemaOk demoRules rowNoAmount = false := by decide
  have h2 := schema_failure_short_circuits demoRules [rowNoAmount] rowNoAmount h
  exact ⟨h, (h2.1 amountMin20Rule (by decide)).1, h2.2.1⟩

/-- C5: the aggregate CheckResult status of a rule is failed exactly
when an eligible row violates it and the rule is blocking, warning
exactly when violations exist only under warning severity, passed
exactly when no eligible row violates it; and a row passes overall
exactly when it violates zero blocking-severity rules.  The rule set is
assumed well formed, every schema rule carrying blocking severity as
the spec prescribes. -/
theorem check_status_semantics (rules : List QualityRule) (rows : List Row) (q : QualityRule)
    (hwf : ∀ p ∈ rules, p.check_type = .schema → p.severity = .blocking)
    (hq : q ∈ rules) :
    ((checkResultFor rules rows q).status = .failed ↔
      (∃ r ∈ eligibleRows rules rows q, evalPred q.pred r = false) ∧
        q.severity = .blocking) ∧
    ((checkResultFor rules rows q).status = .warning ↔
      (∃ r ∈ eligibleRows rules rows q, evalPred q.pred r = false) ∧
        q.severity = .warning) ∧
    ((checkResultFor rules rows q).status = .passed ↔
      ∀ r ∈ eligibleRows rules rows q, evalPred q.pred r = true) ∧
    (∀ r : Row, rowPassed rules r = true ↔
      ∀ p ∈ rules, p.severity = .blocking → evalPred p.pred r = true) := by
  have heff : effSeverity q = q.severity := by
    unfold effSeverity
    by_cases hc : q.check_type = .schema
    · rw [if_pos (by simp [hc])]
      exact (hwf q hq hc).symm
    · rw [if_neg (by simp [hc])]
  have hstat : (checkResultFor rules rows q).status =
      (if (violatingRows rules rows q).isEmpty then CheckStatus.passed
       else if q.severity == .blocking then .failed else .warning) := by
    show (if (violatingRows rules rows q).isEmpty then CheckStatus.passed
          else if effSeverity q == .blocking then .failed else .warning) = _
    rw [heff]
  have hiff : (violatingRows rules rows q).isEmpty = true ↔
      ∀ r ∈ eligibleRows rules rows q, evalPred q.pred r = true := by
    unfold violatingRows
    rw [List.isEmpty_iff, List.filter_eq_nil_iff]
    constructor
    · intro hall r hr
      have := hall r hr
      simpa using this
    · intro hall r hr
      simpa using hall r hr
  have hnon : ¬((violatingRows rules rows q).isEmpty = true) ↔
      ∃ r ∈ eligibleRows rules rows q, evalPred q.pred r = false := by
    rw [hiff]
    push_neg
    constructor
    · rintro ⟨r, hr, hne⟩
      exact ⟨r, hr, by simpa using hne⟩
    · rintro ⟨r, hr, hf⟩
      exact ⟨r, hr, by simp [hf]⟩
  refine ⟨?_, ?_, ?_, ?_⟩
  · rw [hstat]
    by_cases he : (violatingRows rules rows q).isEmpty = true
    · rw [if_pos he]
      constructor
      · intro hc
        exact absurd hc (by decide)
      · rintro ⟨hex, _⟩
        exact absurd he (hnon.mpr hex)
    · rw [if_neg he]
      cases hsev : q.severity with
      | blocking =>
        rw [if_pos (by decide)]
        exact ⟨fun _ => ⟨hnon.mp he, rfl⟩, fun _ => rfl⟩
      | warning =>
        rw [if_neg (by decide)]
        constructor
        · intro hc
          exact absurd hc (by decide)
        · rintro ⟨_, hb⟩
          exact absurd hb (by decide)
  · rw [hstat]
    by_cases he : (violatingRows rules rows q).isEmpty = true
    · rw [if_pos he]
      constructor
      · intro hc
        exact absurd hc (by decide)
      · rintro ⟨hex, _⟩
        exact absurd he (hnon.mpr hex)
    · rw [if_neg he]
      cases hsev : q.severity with
      | blocking =>
        rw [if_pos (by decide)]
        constructor
        · intro hc
          exact absurd hc (by decide)
        · rintro ⟨_, hw⟩
          exact absurd hw (by decide)
      | warning =>
        rw [if_neg (by decide)]
        exact ⟨fun _ => ⟨hnon.mp he, rfl⟩, fun _ => rfl⟩
  · rw [hstat]
    by_cases he : (violatingRows rules rows q).isEmpty = true
    · rw [if_pos he]
      exact ⟨fun _ => hiff.mp he, fun _ => rfl⟩
    · rw [if_neg he]
      constructor
      · intro hc
        by_cases hb : q.severity == Severity.blocking
        · rw [if_pos hb] at hc
          exact absurd hc (by decide)
        · rw [if_neg hb] at hc
          exact absurd hc (by decide)
      · intro hall
        exact absurd (hiff.mpr hall) he
  · intro r
    unfold rowPassed
    rw [List.all_eq_true]
    constructor
    · intro hall p hp hsev
      have hb := hall p hp
      have heffp : effSeverity p = .blocking := by
        unfold effSeverity
        by_cases hc : p.check_type = .schema
        · rw [if_pos (by simp [hc])]
        · rw [if_neg (by simp [hc])]
          exact hsev
      rw [heffp] at hb
      simpa using hb
    · intro hall p hp
      by_cases hsev : p.severity = .blocking
      · have := hall p hp hsev
        simp [this]
      · have hw : p.severity = .warning := by
          cases hps : p.severity
          · exact absurd hps hsev
          · rfl
        have hns : p.check_type ≠ .schema := fun hc => hsev (hwf p hp hc)
        have heffp : effSeverity p = .warning := by
          unfold effSeverity
          rw [if_neg (by simp [hns])]
          exact hw
        simp [heffp]

/-- Witness for C5: on the demo run the blocking constraint rule with
violating rows gets status failed, the schema rule with none gets
passed, and a passing demo row is classified passed overall. -/
theorem check_status_semantics_witness :
    (checkResultFor (orderRules demoRules) demoRows amountMin20Rule).status = .failed ∧
    rowPassed (orderRules demoRules) { id := 50, fields := [("amount", Value.int 50)] } = true := by
  have hwf : ∀ p ∈ orderRules demoRules, p.check_type = .schema → p.severity = .blocking := by
    decide
  have hq : amountMin20Rule ∈ orderRules demoRules := by decide
  have h := check_status_semantics (orderRules demoRules) demoRows amountMin20Rule hwf hq
  constructor
  · exact h.1.mpr ⟨⟨{ id := 0, fields := [("amount", Value.int 0)] }, by decide, by decide⟩, rfl⟩
  · exact (h.2.2.2 { id := 50, fields := [("amount", Value.int 50)] }).mpr (by decide)

/-- A data source fixture. -/
def demoSource : DataSource :=
  { id := 0, name := "claims", source_type := "custom", description := "",
    created_at := 0, record_count := 10 }

/-- A terminal completed run fixture. -/
def doneRun (sourceId runId startedAt : Nat) : PipelineRun :=
  { id := runId, data_source_id := sourceId, started_at := startedAt,
    bronze_status := .completed, silver_status := .completed, gold_status := .completed,
    total_records := 10, passed_records := 8, quality_score := 80, checks_applied := 2 }

/-- A store with one source and two completed runs for it, the later
one started at time 5. -/
def st7 : Store :=
  { sources := [demoSource], runs := [doneRun 0 1 1, doneRun 0 2 5], checks := [] }

/-- A store whose only source has no runs yet. -/
def st8 : Store :=
  { sources := [demoSource], runs := [], checks := [] }

/-- The lineage view st8 yields for its runless source: all layers
pending with zero counts. -/
def v8 : LineageView :=
  { source := demoSource
    bronze := pendingLayer "Raw data layer"
    silver := pendingLayer "Validated layer"
    gold := pendingLayer "Business-ready layer"
    quality_checks := []
    pipeline_runs := [] }

/-- C7: the Lineage Recorder is a read-only projection, so calling it
twice with no intervening rerun returns identical results; the run
history it returns is ordered by started_at descending, so its first
element is a most recent run of the source. -/
theorem lineage_read_idempotent_and_ordered (st : Store) (sourceId : Nat) :
    (getLineage st sourceId).1 = (getLineage (getLineage st sourceId).2 sourceId).1 ∧
    (getLineage st sourceId).2 = st ∧
    List.Sorted recent (historyOf st sourceId) ∧
    (∀ h t, historyOf st sourceId = h :: t →
      ∀ r ∈ runsOf st sourceId, r.started_at ≤ h.started_at) ∧
    (∀ v, computeLineage st sourceId = .ok v → v.pipeline_runs = historyOf st sourceId) := by
  refine ⟨rfl, rfl, List.sorted_insertionSort recent _, ?_, ?_⟩
  · intro h t hh r hr
    have hmem : r ∈ historyOf st sourceId := by
      unfold historyOf
      rw [List.mem_insertionSort]
      exact hr
    rw [hh] at hmem
    have hsorted : List.Sorted recent (h :: t) := by
      have := List.sorted_insertionSort recent (runsOf st sourceId)
      rw [show List.insertionSort recent (runsOf st sourceId) = historyOf st sourceId from rfl,
        hh] at this
      exact this
    cases hmem with
    | head => exact Nat.le_refl _
    | tail _ hm => exact List.rel_of_sorted_cons hsorted r hm
  · intro v hv
    unfold computeLineage at hv
    cases hf : st.sources.find? (fun s => s.id == sourceId) with
    | none =>
      rw [hf] at hv
      exact absurd hv (by simp)
    | some src =>
      rw [hf] at hv
      cases hh : historyOf st sourceId with
      | nil =>
        rw [hh] at hv
        simp only [Except.ok.injEq] at hv
        rw [← hv]
      | cons a t =>
        rw [hh] at hv
        simp only [Except.ok.injEq] at hv
        rw [← hv]

/-- Witness for C7: on the two-run store the recorder leaves the store
unchanged, the history is sorted most recent first, and the head of the
history dominates the earlier run. -/
theorem lineage_read_idempotent_and_ordered_witness :
    (getLineage st7 0).2 = st7 ∧
    List.Sorted recent (historyOf st7 0) ∧
    (doneRun 0 1 1).started_at ≤ (doneRun 0 2 5).started_at := by
  have h := lineage_read_idempotent_and_ordered st7 0
  refine ⟨h.2.1, h.2.2.1, ?_⟩
  exact h.2.2.2.1 (doneRun 0 2 5) [doneRun 0 1 1] (by decide) (doneRun 0 1 1) (by decide)

/-- The claim of C8 as stated: the Lineage Recorder errors with
NotFoundError exactly when the source is missing or has no runs yet. -/
def lineageErrorsOnMissingOrRunless : Prop :=
  ∀ st sourceId, (∃ e, computeLineage st sourceId = .error e) ↔
    (st.sources.find? (fun s => s.id == sourceId) = none ∨ runsOf st sourceId = [])

/-- Counterexample for C8: on a store whose only source exists but has
no runs, the recorder succeeds with pending layers instead of failing,
so erroring exactly on a missing or runless source is false. -/
theorem lineage_not_found_counterexample : ¬ lineageErrorsOnMissingOrRunless := by
  intro hclaim
  obtain ⟨e, he⟩ := (hclaim st8 0).2 (Or.inr rfl)
  have hok : computeLineage st8 0 = .ok v8 := rfl
  rw [hok] at he
  exact Except.noConfusion he

/-- C8 amended: the Lineage Recorder fails with NotFoundError exactly
when the given data source id does not exist; a source with no runs yet
is not an error, its three layers rendering as pending with zero
counts. -/
theorem lineage_not_found_semantics (st : Store) (sourceId : Nat) :
    ((∃ e, computeLineage st sourceId = .error e) ↔
      st.sources.find? (fun s => s.id == sourceId) = none) ∧
    (∀ src, st.sources.find? (fun s => s.id == sourceId) = some src →
      runsOf st sourceId = [] →
      computeLineage st sourceId = .ok
        { source := src
          bronze := pendingLayer "Raw data layer"
          silver := pendingLayer "Validated layer"
          gold := pendingLayer "Business-ready layer"
          quality_checks := []
          pipeline_runs := [] }) := by
  constructor
  · constructor
    · rintro ⟨e, he⟩
      unfold computeLineage at he
      cases hf : st.sources.find? (fun s => s.id == sourceId) with
      | none => rfl
      | some src =>
        rw [hf] at he
        cases hh : historyOf st sourceId with
        | nil =>
          rw [hh] at he
          exact absurd he (by simp)
        | cons a t =>
          rw [hh] at he
          exact absurd he (by simp)
    · intro hf
      refine ⟨.notFound, ?_⟩
      unfold computeLineage
      rw [hf]
  · intro src hf hruns
    have hh : historyOf st sourceId = [] := by
      unfold historyOf
      rw [hruns]
      rfl
    unfold computeLineage
    rw [hf, hh]

/-- Witness for C8 amended: on the runless store the recorder returns
the pending view and produces no error. -/
theorem lineage_not_found_semantics_witness :
    computeLineage st8 0 = .ok v8 ∧ ¬(∃ e, computeLineage st8 0 = .error e) := by
  have h := lineage_not_found_semantics st8 0
  refine ⟨h.2 demoSource rfl rfl, ?_⟩
  intro hex
  have := h.1.mp hex
  exact absurd this (by decide)

/-- C9: after enterDemoMode the auth context has isDemo true while user
and token are null and the stored token is removed, so isAuthenticated
is false: demo mode and an authenticated session are never active
together. -/
theorem enterDemoMode_unauthenticated (s : AuthState) :
    (enterDemoMode s).isDemo = true ∧
    (enterDemoMode s).user = none ∧
    (enterDemoMode s).token = none ∧
    (enterDemoMode s).storedToken = none ∧
    isAuthenticated (enterDemoMode s) = false := by
  refine ⟨rfl, rfl, rfl, rfl, rfl⟩

/-- C10: the registration form submit handler invokes the register API
exactly when the password equals the confirmation and has length at
least 6. -/
theorem register_submit_validation (password confirmPassword : String) :
    registerSubmitCallsApi password confirmPassword = true ↔
      (password = confirmPassword ∧ 6 ≤ password.length) := by
  unfold registerSubmitCallsApi
  by_cases h : password = confirmPassword
  · simp [h]
  · simp [h]

end Watchtower
